import Mathlib

set_option autoImplicit false

/-!
Shallow embedding of the freetsdb query-engine select planner (the influxql
`Select`, `buildAuxIterators`, `buildFieldIterators`, `buildExprIterator`,
transform-iterator builders and binary-expression function tables found in the
repository source) together with the generated storage `table` close and
statistics logic.

Modelling conventions:
* Go `float64` values are modelled as `ℚ`; rounding, overflow to infinities and
  NaN payloads of IEEE arithmetic are abstracted away.  The division-by-zero
  guards of the source are modelled exactly.
* Go `int64` arithmetic wraps; wrapping is made explicit through `wrap64`.
* Go nil pointers are modelled as `Option`; a nil-pointer dereference (a Go
  runtime panic) is modelled as `Except.error ()` in the pointwise combine
  functions and as the distinguished error values `BErr.panicAssert` /
  `BErr.panicUnreachable` in the builders (a failed type assertion or index
  access panics in Go; `panic("unreachable")` is the explicit panic in
  `buildAuxIterators`).
* Iterators are represented by the symbolic tree `Iter` recording exactly which
  constructor of the source wrapped which input; resource accounting is done
  with an explicit state `S` that allocates an id for every iterator obtained
  from an `IteratorCreator` or from an aux iterator and records alloc/close
  events.
-/

namespace FreeTSDB

/-- DataType mirrors the influxql `DataType` variants the source dispatches on
(`Float`, `Integer`, `String`, `Boolean`, `Unknown`). -/
inductive DataType
  | float
  | integer
  | strType
  | boolean
  | unknown
deriving DecidableEq, Repr

/-- Token mirrors the influxql operator tokens handled by
`floatBinaryExprFunc` and `integerBinaryExprFunc`; `otherTok` stands for every
other token (for which the Go switches fall through and return nil). -/
inductive Token
  | ADD
  | SUB
  | MUL
  | DIV
  | EQ
  | NEQ
  | LT
  | LTE
  | GT
  | GTE
  | otherTok
deriving DecidableEq, Repr

/-- Expr mirrors the influxql expression AST surface used by the builder:
`VarRef`, `Call`, `BinaryExpr`, `ParenExpr` and the literal variants. -/
inductive Expr
  | varRef (val : String) (typ : DataType)
  | call (name : String) (args : List Expr)
  | binary (op : Token) (lhs rhs : Expr)
  | paren (e : Expr)
  | numLit (v : ℚ)
  | intLit (v : Int)
  | strLit (s : String)
  | boolLit (b : Bool)

/-- isLiteral is true exactly for the expression variants implementing the Go
`Literal` interface in the modelled AST surface. -/
def Expr.isLiteral : Expr → Bool
  | .numLit _ => true
  | .intLit _ => true
  | .strLit _ => true
  | .boolLit _ => true
  | _ => false

/-- literalDataType mirrors the source: `NumberLiteral → Float`,
`StringLiteral → String`, `BooleanLiteral → Boolean`, anything else
`Unknown`. -/
def literalDataType : Expr → DataType
  | .numLit _ => .float
  | .strLit _ => .strType
  | .boolLit _ => .boolean
  | _ => .unknown

/-- wrap64 reduces an integer to Go two's-complement `int64` range. -/
def wrap64 (x : Int) : Int := (x + 2 ^ 63) % 2 ^ 64 - 2 ^ 63

/-- BinFn is the (typed) value of the Go `interface{}` returned by
`binaryExprFunc`: one of the five closure shapes the source switches on, or
nil. -/
inductive BinFn
  | ff (f : ℚ → ℚ → ℚ)
  | fb (f : ℚ → ℚ → Bool)
  | ii (f : Int → Int → Int)
  | ifl (f : Int → Int → ℚ)
  | ib (f : Int → Int → Bool)
  | nilFn

/-- floatBinaryExprFunc mirrors the source switch over operator tokens for
float operands. -/
def floatBinaryExprFunc : Token → BinFn
  | .ADD => .ff fun lhs rhs => lhs + rhs
  | .SUB => .ff fun lhs rhs => lhs - rhs
  | .MUL => .ff fun lhs rhs => lhs * rhs
  | .DIV => .ff fun lhs rhs => if rhs = 0 then 0 else lhs / rhs
  | .EQ => .fb fun lhs rhs => lhs == rhs
  | .NEQ => .fb fun lhs rhs => lhs != rhs
  | .LT => .fb fun lhs rhs => lhs < rhs
  | .LTE => .fb fun lhs rhs => lhs ≤ rhs
  | .GT => .fb fun lhs rhs => rhs < lhs
  | .GTE => .fb fun lhs rhs => rhs ≤ lhs
  | .otherTok => .nilFn

/-- integerBinaryExprFunc mirrors the source switch for integer operands:
`+ - *` stay integer (wrapping), `/` promotes to float and guards division by
zero, comparisons return booleans. -/
def integerBinaryExprFunc : Token → BinFn
  | .ADD => .ii fun lhs rhs => wrap64 (lhs + rhs)
  | .SUB => .ii fun lhs rhs => wrap64 (lhs - rhs)
  | .MUL => .ii fun lhs rhs => wrap64 (lhs * rhs)
  | .DIV => .ifl fun lhs rhs => if rhs = 0 then 0 else (lhs : ℚ) / (rhs : ℚ)
  | .EQ => .ib fun lhs rhs => lhs == rhs
  | .NEQ => .ib fun lhs rhs => lhs != rhs
  | .LT => .ib fun lhs rhs => lhs < rhs
  | .LTE => .ib fun lhs rhs => lhs ≤ rhs
  | .GT => .ib fun lhs rhs => rhs < lhs
  | .GTE => .ib fun lhs rhs => rhs ≤ lhs
  | .otherTok => .nilFn

/-- binaryExprFunc mirrors the source dispatch: a float on the left always
selects the float family; an integer on the left selects the float family only
when the right side is float, otherwise the integer family; any other left
type leaves the function nil. -/
def binaryExprFunc (typ1 typ2 : DataType) (op : Token) : BinFn :=
  match typ1 with
  | .float => floatBinaryExprFunc op
  | .integer =>
    match typ2 with
    | .float => floatBinaryExprFunc op
    | _ => integerBinaryExprFunc op
  | _ => .nilFn

/-- Pt is the typed point record (`FloatPoint`, `IntegerPoint`,
`BooleanPoint`, …): metadata, typed value and the `Nil` flag.  The `Aux`
payload (a slice of dynamically typed scalars in Go) is abstracted to a list
of integers; the combine functions only copy it. -/
structure Pt (α : Type) where
  name : String
  tags : List (String × String)
  time : Int
  aux : List Int
  value : α
  nil : Bool
deriving DecidableEq, Repr

/-- floatExprFn is the combine closure of the `func(float64, float64) float64`
case of `buildTransformIterator`.  A `none` argument models a nil point
pointer (that upstream exhausted); `Except.error ()` models the nil-pointer
dereference panic that happens when both arguments are nil. -/
def floatExprFn (f : ℚ → ℚ → ℚ) :
    Option (Pt ℚ) → Option (Pt ℚ) → Except Unit (Pt ℚ)
  | some a, some b =>
    if !a.nil && !b.nil then .ok { a with value := f a.value b.value }
    else if a.nil then .ok a
    else .ok b
  | some a, none => .ok { a with value := 0, nil := true }
  | none, some b => .ok { b with value := 0, nil := true }
  | none, none => .error ()

/-- integerExprFn is the combine closure of the `func(int64, int64) int64`
case of `buildTransformIterator`; it has the same shape as `floatExprFn`. -/
def integerExprFn (f : Int → Int → Int) :
    Option (Pt Int) → Option (Pt Int) → Except Unit (Pt Int)
  | some a, some b =>
    if !a.nil && !b.nil then .ok { a with value := f a.value b.value }
    else if a.nil then .ok a
    else .ok b
  | some a, none => .ok { a with value := 0, nil := true }
  | none, some b => .ok { b with value := 0, nil := true }
  | none, none => .error ()

/-- integerFloatExprFn is the combine closure of the
`func(int64, int64) float64` (integer division) case of
`buildTransformIterator`.  The source builds the output `FloatPoint` from
`a.Name`, `a.Tags`, `a.Time`, `a.Aux` before any nil check, so a nil left
point is dereferenced unconditionally (`Except.error ()`). -/
def integerFloatExprFn (f : Int → Int → ℚ) :
    Option (Pt Int) → Option (Pt Int) → Except Unit (Pt ℚ)
  | none, _ => .error ()
  | some a, ob =>
    let p : Pt ℚ :=
      { name := a.name, tags := a.tags, time := a.time, aux := a.aux
        value := 0, nil := false }
    match ob with
    | some b =>
      if !a.nil && !b.nil then .ok { p with value := f a.value b.value }
      else .ok { p with nil := true }
    | none => .ok { p with nil := true }

/-- floatBooleanExprFn is the combine closure of the
`func(float64, float64) bool` case of `buildTransformIterator`; like the
integer-division case it builds the output point from the left operand before
any nil check. -/
def floatBooleanExprFn (f : ℚ → ℚ → Bool) :
    Option (Pt ℚ) → Option (Pt ℚ) → Except Unit (Pt Bool)
  | none, _ => .error ()
  | some a, ob =>
    let p : Pt Bool :=
      { name := a.name, tags := a.tags, time := a.time, aux := a.aux
        value := false, nil := false }
    match ob with
    | some b =>
      if !a.nil && !b.nil then .ok { p with value := f a.value b.value }
      else .ok { p with nil := true }
    | none => .ok { p with nil := true }

/-- integerBooleanExprFn is the combine closure of the
`func(int64, int64) bool` case of `buildTransformIterator`; same shape as
`floatBooleanExprFn`. -/
def integerBooleanExprFn (f : Int → Int → Bool) :
    Option (Pt Int) → Option (Pt Int) → Except Unit (Pt Bool)
  | none, _ => .error ()
  | some a, ob =>
    let p : Pt Bool :=
      { name := a.name, tags := a.tags, time := a.time, aux := a.aux
        value := false, nil := false }
    match ob with
    | some b =>
      if !a.nil && !b.nil then .ok { p with value := f a.value b.value }
      else .ok { p with nil := true }
    | none => .ok { p with nil := true }

/-! ### Symbolic iterators, resource state, iterator creators -/

/-- Iter is the symbolic iterator tree: each constructor records one iterator
constructor of the source.  Leaves (`storage` from `ic.CreateIterator`,
`auxHandle` from an aux iterator) carry the resource id allocated at creation
and the data type of the produced points. -/
inductive Iter
  | storage (id : Nat) (typ : DataType)
  | auxHandle (id : Nat) (typ : DataType)
  | auxMux (input : Iter)
  | dedupe (input : Iter)
  | limit (input : Iter)
  | interval (input : Iter)
  | fill (input : Iter)
  | distinct (input : Iter)
  | derivative (input : Iter) (isNonNegative : Bool)
  | countDistinct (input : Iter)
  | median (input : Iter)
  | stddev (input : Iter)
  | spread (input : Iter)
  | top (input : Iter) (n : ℚ) (tags : List Nat)
  | bottom (input : Iter) (n : ℚ) (tags : List Nat)
  | percentile (input : Iter) (p : ℚ)
  | intFloatCast (input : Iter)
  | floatTransformR (op : Token) (input : Iter) (lit : ℚ)
  | floatTransformL (op : Token) (lit : ℚ) (input : Iter)
  | floatBoolTransformR (op : Token) (input : Iter) (lit : ℚ)
  | floatBoolTransformL (op : Token) (lit : ℚ) (input : Iter)
  | combineFF (op : Token) (lhs rhs : Iter)
  | combineIF (op : Token) (lhs rhs : Iter)
  | combineII (op : Token) (lhs rhs : Iter)
  | combineFB (op : Token) (lhs rhs : Iter)
  | combineIB (op : Token) (lhs rhs : Iter)
deriving DecidableEq, Repr

/-- Iter.dataType mirrors `iteratorDataType`: the dynamic point type of the
iterator (wrappers keep their input's type, casts and promotions fix it). -/
def Iter.dataType : Iter → DataType
  | .storage _ t => t
  | .auxHandle _ t => t
  | .auxMux i => i.dataType
  | .dedupe i => i.dataType
  | .limit i => i.dataType
  | .interval i => i.dataType
  | .fill i => i.dataType
  | .distinct i => i.dataType
  | .derivative _ _ => .float
  | .countDistinct _ => .integer
  | .median _ => .float
  | .stddev _ => .float
  | .spread i => i.dataType
  | .top i _ _ => i.dataType
  | .bottom i _ _ => i.dataType
  | .percentile i _ => i.dataType
  | .intFloatCast _ => .float
  | .floatTransformR _ _ _ => .float
  | .floatTransformL _ _ _ => .float
  | .floatBoolTransformR _ _ _ => .boolean
  | .floatBoolTransformL _ _ _ => .boolean
  | .combineFF _ _ _ => .float
  | .combineIF _ _ _ => .float
  | .combineII _ _ _ => .integer
  | .combineFB _ _ _ => .boolean
  | .combineIB _ _ _ => .boolean

/-- Iter.ids collects the resource ids of every leaf in the tree; closing an
iterator releases exactly these. -/
def Iter.ids : Iter → List Nat
  | .storage id _ => [id]
  | .auxHandle id _ => [id]
  | .auxMux i => i.ids
  | .dedupe i => i.ids
  | .limit i => i.ids
  | .interval i => i.ids
  | .fill i => i.ids
  | .distinct i => i.ids
  | .derivative i _ => i.ids
  | .countDistinct i => i.ids
  | .median i => i.ids
  | .stddev i => i.ids
  | .spread i => i.ids
  | .top i _ _ => i.ids
  | .bottom i _ _ => i.ids
  | .percentile i _ => i.ids
  | .intFloatCast i => i.ids
  | .floatTransformR _ i _ => i.ids
  | .floatTransformL _ _ i => i.ids
  | .floatBoolTransformR _ i _ => i.ids
  | .floatBoolTransformL _ _ i => i.ids
  | .combineFF _ l r => l.ids ++ r.ids
  | .combineIF _ l r => l.ids ++ r.ids
  | .combineII _ l r => l.ids ++ r.ids
  | .combineFB _ l r => l.ids ++ r.ids
  | .combineIB _ l r => l.ids ++ r.ids

/-- Iter.isLeaf is true for the two creator-materialised leaves. -/
def Iter.isLeaf : Iter → Bool
  | .storage _ _ => true
  | .auxHandle _ _ => true
  | _ => false

/-- receivedIntervalWrap is true when the iterator's own result was wrapped in
`NewIntervalIterator` (possibly with a fill wrap applied on top of it). -/
def receivedIntervalWrap : Iter → Bool
  | .interval _ => true
  | .fill (.interval _) => true
  | _ => false

/-- isFillTop is true when the outermost wrapper is a fill iterator. -/
def isFillTop : Iter → Bool
  | .fill _ => true
  | _ => false

/-- mentionsInterval is true when an interval iterator occurs anywhere in the
tree. -/
def mentionsInterval : Iter → Bool
  | .interval _ => true
  | .storage _ _ => false
  | .auxHandle _ _ => false
  | .auxMux i => mentionsInterval i
  | .dedupe i => mentionsInterval i
  | .limit i => mentionsInterval i
  | .fill i => mentionsInterval i
  | .distinct i => mentionsInterval i
  | .derivative i _ => mentionsInterval i
  | .countDistinct i => mentionsInterval i
  | .median i => mentionsInterval i
  | .stddev i => mentionsInterval i
  | .spread i => mentionsInterval i
  | .top i _ _ => mentionsInterval i
  | .bottom i _ _ => mentionsInterval i
  | .percentile i _ => mentionsInterval i
  | .intFloatCast i => mentionsInterval i
  | .floatTransformR _ i _ => mentionsInterval i
  | .floatTransformL _ _ i => mentionsInterval i
  | .floatBoolTransformR _ i _ => mentionsInterval i
  | .floatBoolTransformL _ _ i => mentionsInterval i
  | .combineFF _ l r => mentionsInterval l || mentionsInterval r
  | .combineIF _ l r => mentionsInterval l || mentionsInterval r
  | .combineII _ l r => mentionsInterval l || mentionsInterval r
  | .combineFB _ l r => mentionsInterval l || mentionsInterval r
  | .combineIB _ l r => mentionsInterval l || mentionsInterval r

/-- isVarRefOrBinary is true for the two reduced-expression shapes the aux
pipeline's field loop accepts. -/
def isVarRefOrBinary : Expr → Bool
  | .varRef _ _ => true
  | .binary _ _ _ => true
  | _ => false

/-- Ev is a resource event: an iterator with the given id was created, or
closed. -/
inductive Ev
  | alloc (id : Nat)
  | close (id : Nat)
deriving DecidableEq, Repr

/-- S is the resource-accounting state threaded through the builders. -/
structure S where
  next : Nat
  events : List Ev
deriving DecidableEq, Repr

/-- allocs lists the ids allocated in an event trace. -/
def allocs : List Ev → List Nat
  | [] => []
  | .alloc id :: rest => id :: allocs rest
  | .close _ :: rest => allocs rest

/-- closes lists the ids closed in an event trace. -/
def closes : List Ev → List Nat
  | [] => []
  | .close id :: rest => id :: closes rest
  | .alloc _ :: rest => closes rest

/-- leaked lists the ids that were allocated but never closed. -/
def leaked (evs : List Ev) : List Nat :=
  (allocs evs).filter fun id => !(closes evs).contains id

/-- closeEvents is the event trace produced by closing an iterator tree. -/
def closeEvents (i : Iter) : List Ev := i.ids.map .close

/-- BErr enumerates the distinguishable outcomes of a failed build: errors the
source returns as values, storage-propagated errors (`storage n` tags an error
from the iterator creator), and modelled panics.  `fuelOut` is an artefact of
the fuel-indexed recursion and corresponds to no source behaviour. -/
inductive BErr
  | fuelOut
  | storage (n : Nat)
  | multipleAggregates
  | panicAssert
  | panicUnreachable
  | fieldWrap (e : BErr)
  | topArity (n : Nat)
  | bottomArity (n : Nat)
  | unsupportedCall (name : String)
  | invalidExprType
  | twoLiterals
  | lhsNotFloat
  | rhsNotFloat
  | lhsNotInteger
  | rhsNotInteger
  | lhsNotNumberLit
  | rhsNotNumberLit
  | rhsTransformUnsupported
  | lhsTransformUnsupported
  | transformUnsupported
deriving DecidableEq, Repr

/-- LeafKind distinguishes leaves materialised by the storage-facing iterator
creator from handles produced by an aux iterator acting as the creator. -/
inductive LeafKind
  | storageLeaf
  | auxLeaf
deriving DecidableEq, Repr

/-- Interval mirrors `influxql.Interval`; `IsZero` holds iff the duration is
zero. -/
structure Interval where
  duration : Int
  offset : Int
deriving DecidableEq, Repr

/-- Interval.isZero mirrors the source's `IsZero`. -/
def Interval.isZero (i : Interval) : Bool := i.duration == 0

/-- FillOption mirrors the influxql fill policies. -/
inductive FillOption
  | noFill
  | nullFill
  | numberFill
  | previousFill
  | linearFill
deriving DecidableEq, Repr

/-- Opt is the slice of `IteratorOptions` the modelled builders read or
write. -/
structure Opt where
  expr : Option Expr
  aux : List String
  interval : Interval
  fill : FillOption
  fillValue : ℚ
  limitN : Int
  offsetN : Int
  dedupe : Bool
  startTime : Int
  endTime : Int

/-- ICm models an `IteratorCreator`: `createType` decides, from the expression
the options carry, whether `CreateIterator` fails (with a tagged storage
error) or succeeds and with which point type; `kind` says which leaf
constructor the creator materialises; `seriesKeysRes` models `SeriesKeys`. -/
structure ICm where
  createType : Option Expr → Except Nat DataType
  kind : LeafKind
  seriesKeysRes : Except Nat Unit

/-- createIter models a call to `ic.CreateIterator(opt)`: on success a fresh
resource id is allocated and the matching leaf is produced. -/
def createIter (ic : ICm) (opt : Opt) (s : S) : Except BErr Iter × S :=
  match ic.createType opt.expr with
  | .error n => (.error (.storage n), s)
  | .ok t =>
    let leaf :=
      match ic.kind with
      | .storageLeaf => Iter.storage s.next t
      | .auxLeaf => Iter.auxHandle s.next t
    (.ok leaf, { next := s.next + 1, events := s.events ++ [.alloc s.next] })

/-- newAuxHandle models `aitr.Iterator(name)`: a fresh downstream handle of
the given type (the declared type of the referenced field). -/
def newAuxHandle (t : DataType) (s : S) : Iter × S :=
  (Iter.auxHandle s.next t, { next := s.next + 1, events := s.events ++ [.alloc s.next] })

/-- castFloat mirrors the operand-cast switches: a float iterator is used as
is, an integer iterator is wrapped in `integerFloatCastIterator`, anything
else is a type mismatch. -/
def castFloat (i : Iter) : Option Iter :=
  match i.dataType with
  | .float => some i
  | .integer => some (.intFloatCast i)
  | _ => none

/-- buildRHSTransformIterator mirrors the source: dispatch on the function
shape for (iterator type, literal type, op); for the float and boolean
families cast the left iterator to float and require the literal to be a
`NumberLiteral`. -/
def buildRHSTransformIterator (lhs : Iter) (rhs : Expr) (op : Token) : Except BErr Iter :=
  match binaryExprFunc lhs.dataType (literalDataType rhs) op with
  | .ff _ =>
    match castFloat lhs with
    | none => .error .lhsNotFloat
    | some input =>
      match rhs with
      | .numLit v => .ok (.floatTransformR op input v)
      | _ => .error .rhsNotNumberLit
  | .fb _ =>
    match castFloat lhs with
    | none => .error .lhsNotFloat
    | some input =>
      match rhs with
      | .numLit v => .ok (.floatBoolTransformR op input v)
      | _ => .error .rhsNotNumberLit
  | _ => .error .rhsTransformUnsupported

/-- buildLHSTransformIterator mirrors the source, symmetric to
`buildRHSTransformIterator` with the literal on the left. -/
def buildLHSTransformIterator (lhs : Expr) (rhs : Iter) (op : Token) : Except BErr Iter :=
  match binaryExprFunc (literalDataType lhs) rhs.dataType op with
  | .ff _ =>
    match castFloat rhs with
    | none => .error .rhsNotFloat
    | some input =>
      match lhs with
      | .numLit v => .ok (.floatTransformL op v input)
      | _ => .error .lhsNotNumberLit
  | .fb _ =>
    match castFloat rhs with
    | none => .error .rhsNotFloat
    | some input =>
      match lhs with
      | .numLit v => .ok (.floatBoolTransformL op v input)
      | _ => .error .lhsNotNumberLit
  | _ => .error .lhsTransformUnsupported

/-- buildTransformIterator mirrors the source: dispatch on the function shape
for the two iterator types; float-valued and boolean-on-float functions cast
both sides to float, the integer families require both sides to be integer
iterators. -/
def buildTransformIterator (lhs rhs : Iter) (op : Token) : Except BErr Iter :=
  match binaryExprFunc lhs.dataType rhs.dataType op with
  | .ff _ =>
    match castFloat lhs with
    | none => .error .lhsNotFloat
    | some l =>
      match castFloat rhs with
      | none => .error .rhsNotFloat
      | some r => .ok (.combineFF op l r)
  | .ifl _ =>
    if lhs.dataType = .integer then
      if rhs.dataType = .integer then .ok (.combineIF op lhs rhs)
      else .error .rhsNotInteger
    else .error .lhsNotInteger
  | .ii _ =>
    if lhs.dataType = .integer then
      if rhs.dataType = .integer then .ok (.combineII op lhs rhs)
      else .error .rhsNotInteger
    else .error .lhsNotInteger
  | .fb _ =>
    match castFloat lhs with
    | none => .error .lhsNotFloat
    | some l =>
      match castFloat rhs with
      | none => .error .rhsNotFloat
      | some r => .ok (.combineFB op l r)
  | .ib _ =>
    if lhs.dataType = .integer then
      if rhs.dataType = .integer then .ok (.combineIB op lhs rhs)
      else .error .rhsNotInteger
    else .error .lhsNotInteger
  | .nilFn => .error .transformUnsupported

/-- bindOk models the pervasive Go idiom `x, err := build(...); if err != nil
{ return nil, err }; ...`: continue with the built iterator and the updated
state, or propagate the error. -/
def bindOk (r : Except BErr Iter × S) (f : Iter → S → Except BErr Iter × S) :
    Except BErr Iter × S :=
  match r with
  | (.ok i, s) => f i s
  | (.error e, s) => (.error e, s)

/-- mapOk is `bindOk` with a pure wrapping of the built iterator. -/
def mapOk (r : Except BErr Iter × S) (f : Iter → Iter) : Except BErr Iter × S :=
  bindOk r fun i s => (.ok (f i), s)

/-- interiorTagIdxs models the interior-argument scan of the `top`/`bottom`
branches: each argument strictly between the first and the last must be a
`VarRef` (a failed type assertion panics, modelled as `none`); its position in
`opt.Aux` is recorded when present, silently skipped otherwise. -/
def interiorTagIdxs (args : List Expr) (aux : List String) : Option (List Nat) :=
  if args.length > 2 then
    ((args.drop 1).dropLast).foldl
      (fun acc a =>
        match acc, a with
        | some tags, .varRef v _ =>
          match aux.findIdx? (fun name => name == v) with
          | some i => some (tags ++ [i])
          | none => some tags
        | _, _ => none)
      (some [])
  else some []

/-- buildCallDefault models the inner `func() (Iterator, error)` of the
default branch of the `Call` case of `buildExprIterator`; `rec` is the
recursive builder (at one less fuel). -/
def buildCallDefault (rec : Expr → ICm → Opt → S → Except BErr Iter × S)
    (name : String) (args : List Expr) (ic : ICm) (opt : Opt) (s : S) :
    Except BErr Iter × S :=
  match name with
  | "count" =>
    match args.get? 0 with
    | none => (.error .panicAssert, s)
    | some (.call "distinct" dargs) =>
      mapOk (rec (.call "distinct" dargs) ic opt s) .countDistinct
    | some _ => createIter ic opt s
  | "min" | "max" | "sum" | "first" | "last" | "mean" => createIter ic opt s
  | "median" =>
    match args.get? 0 with
    | some (.varRef v t) => mapOk (rec (.varRef v t) ic opt s) .median
    | _ => (.error .panicAssert, s)
  | "stddev" =>
    match args.get? 0 with
    | some (.varRef v t) => mapOk (rec (.varRef v t) ic opt s) .stddev
    | _ => (.error .panicAssert, s)
  | "spread" =>
    match args.get? 0 with
    | some (.varRef v t) => mapOk (rec (.varRef v t) ic opt s) .spread
    | _ => (.error .panicAssert, s)
  | "top" =>
    if args.length < 2 then (.error (.topArity args.length), s)
    else
      match interiorTagIdxs args opt.aux with
      | none => (.error .panicAssert, s)
      | some tags =>
        match args.get? 0 with
        | some (.varRef v t) =>
          bindOk (rec (.varRef v t) ic opt s) fun input s' =>
            match args.getLast? with
            | some (.numLit n) => (.ok (.top input n tags), s')
            | _ => (.error .panicAssert, s')
        | _ => (.error .panicAssert, s)
  | "bottom" =>
    if args.length < 2 then (.error (.bottomArity args.length), s)
    else
      match interiorTagIdxs args opt.aux with
      | none => (.error .panicAssert, s)
      | some tags =>
        match args.get? 0 with
        | some (.varRef v t) =>
          bindOk (rec (.varRef v t) ic opt s) fun input s' =>
            match args.getLast? with
            | some (.numLit n) => (.ok (.bottom input n tags), s')
            | _ => (.error .panicAssert, s')
        | _ => (.error .panicAssert, s)
  | "percentile" =>
    match args.get? 0 with
    | some (.varRef v t) =>
      bindOk (rec (.varRef v t) ic opt s) fun input s' =>
        match args.get? 1 with
        | some (.numLit p) => (.ok (.percentile input p), s')
        | _ => (.error .panicAssert, s')
    | _ => (.error .panicAssert, s)
  | _ => (.error (.unsupportedCall name), s)

/-- callWrap is the epilogue of the default `Call` dispatch: wrap in
`NewIntervalIterator` unless the call is `top`/`bottom`, then wrap in a fill
iterator when the interval is non-zero and the fill policy is not
`NoFill`. -/
def callWrap (name : String) (opt : Opt) (itr : Iter) : Iter :=
  let itr1 := if name ≠ "top" ∧ name ≠ "bottom" then Iter.interval itr else itr
  if ¬opt.interval.isZero ∧ opt.fill ≠ .noFill then Iter.fill itr1 else itr1

/-- buildExprIterator is the fuel-indexed model of the source's recursive
expression-to-iterator builder.  Entering the function consumes one unit of
fuel; exhausted fuel yields the artefact error `fuelOut` (the source recursion
always terminates on finite expressions, so every claim is stated with enough
fuel).  The `Call` case applies the interval wrap to every default-dispatch
call except `top`/`bottom`, then the fill wrap when the interval is non-zero
and the fill policy is not `NoFill`; the `distinct` and derivative branches
return early exactly as in the source. -/
def buildExprIterator : Nat → Expr → ICm → Opt → S → Except BErr Iter × S
  | 0, _, _, _, s => (.error .fuelOut, s)
  | fuel + 1, e, ic, opt0, s =>
    let opt := { opt0 with expr := some e }
    match e with
    | .varRef _ _ => createIter ic opt s
    | .call name args =>
      if name = "distinct" then
        match args.get? 0 with
        | some (.varRef v t) =>
          mapOk (buildExprIterator fuel (.varRef v t) ic opt s) fun input =>
            .interval (.distinct input)
        | _ => (.error .panicAssert, s)
      else if name = "derivative" ∨ name = "non_negative_derivative" then
        match args.get? 0 with
        | none => (.error .panicAssert, s)
        | some a0 =>
          mapOk (buildExprIterator fuel a0 ic opt s) fun input =>
            .derivative input (name == "non_negative_derivative")
      else
        mapOk (buildCallDefault (buildExprIterator fuel) name args ic opt s)
          (callWrap name opt)
    | .binary op lhs rhs =>
      if rhs.isLiteral then
        if lhs.isLiteral then (.error .twoLiterals, s)
        else
          bindOk (buildExprIterator fuel lhs ic opt s) fun l s' =>
            (buildRHSTransformIterator l rhs op, s')
      else if lhs.isLiteral then
        bindOk (buildExprIterator fuel rhs ic opt s) fun r s' =>
          (buildLHSTransformIterator lhs r op, s')
      else
        bindOk (buildExprIterator fuel lhs ic opt s) fun l s' =>
          bindOk (buildExprIterator fuel rhs ic opt s') fun r s'' =>
            (buildTransformIterator l r op, s'')
    | .paren inner => buildExprIterator fuel inner ic opt s
    | _ => (.error .invalidExprType, s)

/-! ### The two pipelines and the select planner -/

/-- reduce. Modelled from the spec: the helper `Reduce(expr, valuer)` ("folds
constants") is not part of the provided source.  Binary expressions over two
number literals fold to a literal (division by zero folding to zero),
parenthesised non-binary results unwrap, everything else is rebuilt
unchanged. -/
def foldBinaryOp (op : Token) (a b : ℚ) : Expr :=
  match op with
  | .ADD => .numLit (a + b)
  | .SUB => .numLit (a - b)
  | .MUL => .numLit (a * b)
  | .DIV => .numLit (if b = 0 then 0 else a / b)
  | .EQ => .boolLit (a == b)
  | .NEQ => .boolLit (a != b)
  | .LT => .boolLit (decide (a < b))
  | .LTE => .boolLit (decide (a ≤ b))
  | .GT => .boolLit (decide (b < a))
  | .GTE => .boolLit (decide (b ≤ a))
  | .otherTok => .binary op (.numLit a) (.numLit b)

/-- reduce folds constants; see `foldBinaryOp`. -/
def reduce : Expr → Expr
  | .binary op l r =>
    match reduce l, reduce r with
    | .numLit a, .numLit b => foldBinaryOp op a b
    | l', r' => .binary op l' r'
  | .paren e =>
    match reduce e with
    | .binary op l r => .paren (.binary op l r)
    | e' => e'
  | e => e

/-- containsVarRef. Modelled from the spec: the helper
`ContainsVarRef(expr) → bool` is not part of the provided source; it reports a
raw field reference outside of any call (the spec's "mixed aggregate + aux
case"), so the walk prunes at calls. -/
def containsVarRef : Expr → Bool
  | .varRef _ _ => true
  | .call _ _ => false
  | .binary _ l r => containsVarRef l || containsVarRef r
  | .paren e => containsVarRef e
  | _ => false

/-- refTypeOf gives the declared type of the field reference the options
carry; aux-iterator downstream handles take this type (the spec: the
upstream's type for that field determines the downstream iterator's type). -/
def refTypeOf : Option Expr → DataType
  | some (.varRef _ t) => t
  | _ => .float

/-- auxIC is an aux iterator in its `IteratorCreator` role: creating an
iterator always succeeds and yields a downstream handle of the referenced
field's declared type; it allocates no storage resources of its own. -/
def auxIC : ICm :=
  { createType := fun oe => .ok (refTypeOf oe)
    kind := .auxLeaf
    seriesKeysRes := .ok () }

/-- buildAuxLoop models the per-field loop of `buildAuxIterators`: a reduced
`VarRef` becomes a downstream handle (`aitr.Iterator`), a reduced
`BinaryExpr` is built against the aux iterator (an error is wrapped in the
field-context error and returned without closing anything, exactly as in the
source), anything else hits `panic("unreachable")`. -/
def buildAuxLoop (fuel : Nat) (opt : Opt) :
    List Expr → List Iter → S → Except BErr (List Iter) × S
  | [], acc, s => (.ok acc.reverse, s)
  | f :: rest, acc, s =>
    match reduce f with
    | .varRef v t =>
      let (h, s') := newAuxHandle t s
      let _ := v
      buildAuxLoop fuel opt rest (h :: acc) s'
    | .binary op l r =>
      match buildExprIterator fuel (.binary op l r) auxIC opt s with
      | (.ok itr, s') => buildAuxLoop fuel opt rest (itr :: acc) s'
      | (.error e, s') => (.error (.fieldWrap e), s')
    | _ => (.error .panicUnreachable, s)

/-- buildAuxIterators models the aux-iterator pipeline: create the single
combined upstream, wrap dedupe and limit, fetch series keys (closing the
upstream on failure), then fan out one iterator per field. -/
def buildAuxIterators (fuel : Nat) (fields : List Expr) (ic : ICm) (opt : Opt)
    (s : S) : Except BErr (List Iter) × S :=
  match createIter ic opt s with
  | (.error e, s') => (.error e, s')
  | (.ok input0, s') =>
    let input1 := if opt.dedupe then Iter.dedupe input0 else input0
    let input2 := if opt.limitN > 0 ∨ opt.offsetN > 0 then Iter.limit input1 else input1
    match ic.seriesKeysRes with
    | .error n =>
      (.error (.storage n), { s' with events := s'.events ++ closeEvents input2 })
    | .ok _ => buildAuxLoop fuel opt fields [] s'

/-- closeSlots is the event trace of closing every non-nil iterator of a
result slice (`Iterators(itrs).filterNonNil().Close()`). -/
def closeSlots (slots : List (Option Iter)) : List Ev :=
  slots.foldr
    (fun o acc =>
      match o with
      | some i => closeEvents i ++ acc
      | none => acc)
    []

/-- buildFieldPass1 models the first pass of `buildFieldIterators`: fields
containing a raw reference are deferred (nil slot, `hasAuxFields` set), every
other field is reduced and built; on failure the slots built so far are
surfaced so the caller can close them. -/
def buildFieldPass1 (fuel : Nat) (ic : ICm) (opt : Opt) :
    List Expr → List (Option Iter) → Option Iter → Bool → S →
    Except (BErr × List (Option Iter)) (List (Option Iter) × Option Iter × Bool) × S
  | [], acc, input, hasAux, s => (.ok (acc.reverse, input, hasAux), s)
  | f :: rest, acc, input, hasAux, s =>
    if containsVarRef f then
      buildFieldPass1 fuel ic opt rest (none :: acc) input true s
    else
      match buildExprIterator fuel (reduce f) ic opt s with
      | (.error e, s') => (.error (e, acc.reverse), s')
      | (.ok itr, s') =>
        buildFieldPass1 fuel ic opt rest (some itr :: acc) (some itr) hasAux s'

/-- buildFieldPass2 models the second pass: already-built slots are replaced
by the aux iterator itself, deferred fields are built against the aux
iterator; on failure the current slots are surfaced for closing. -/
def buildFieldPass2 (fuel : Nat) (opt : Opt) (aitr : Iter) :
    List (Expr × Option Iter) → List (Option Iter) → S →
    Except (BErr × List (Option Iter)) (List (Option Iter)) × S
  | [], done, s => (.ok done.reverse, s)
  | (f, slot) :: rest, done, s =>
    match slot with
    | some _ => buildFieldPass2 fuel opt aitr rest (some aitr :: done) s
    | none =>
      match buildExprIterator fuel (reduce f) auxIC opt s with
      | (.error e, s') =>
        (.error (e, done.reverse ++ (none :: rest.map Prod.snd)), s')
      | (.ok itr, s') => buildFieldPass2 fuel opt aitr rest (some itr :: done) s'

/-- finishLimit models the outer limit/offset wrap applied to every resulting
iterator. -/
def finishLimit (opt : Opt) (slots : List (Option Iter)) (s : S) :
    Except BErr (List (Option Iter)) × S :=
  if opt.limitN > 0 ∨ opt.offsetN > 0 then
    (.ok (slots.map (Option.map Iter.limit)), s)
  else (.ok slots, s)

/-- buildFieldIterators models the field-iterator pipeline including its
close-on-error discipline: on any failure of either pass (or of `SeriesKeys`)
every non-nil iterator currently in the result slice is closed before the
error is returned. -/
def buildFieldIterators (fuel : Nat) (fields : List Expr) (ic : ICm) (opt : Opt)
    (s : S) : Except BErr (List (Option Iter)) × S :=
  match buildFieldPass1 fuel ic opt fields [] none false s with
  | (.error (e, slots), s') =>
    (.error e, { s' with events := s'.events ++ closeSlots slots })
  | (.ok (slots, input, hasAux), s') =>
    match input, hasAux with
    | none, _ => finishLimit opt slots s'
    | some _, false => finishLimit opt slots s'
    | some inp, true =>
      match ic.seriesKeysRes with
      | .error n =>
        (.error (.storage n), { s' with events := s'.events ++ closeSlots slots })
      | .ok _ =>
        match buildFieldPass2 fuel opt (Iter.auxMux inp) (fields.zip slots) [] s' with
        | (.error (e, slots2), s'') =>
          (.error e, { s'' with events := s''.events ++ closeSlots slots2 })
        | (.ok slots2, s'') => finishLimit opt slots2 s''

/-- collectCalls. Modelled from the spec: `newSelectInfo` is not part of the
provided source; it walks the projection collecting aggregate/selector call
references, pruning below a call. -/
def collectCalls : Expr → List (String × List Expr)
  | .call n args => [(n, args)]
  | .binary _ l r => collectCalls l ++ collectCalls r
  | .paren e => collectCalls e
  | _ => []

/-- collectRefs. Modelled from the spec: the raw field references of an
expression, pruning below a call (references inside call arguments are not
"raw"). -/
def collectRefs : Expr → List String
  | .varRef v _ => [v]
  | .call _ _ => []
  | .binary _ l r => collectRefs l ++ collectRefs r
  | .paren e => collectRefs e
  | _ => []

/-- SelInfo is the call/ref census `newSelectInfo` computes over the
projection. -/
structure SelInfo where
  calls : List (String × List Expr)
  refs : List String

/-- selectInfo gathers the census over all projected fields. -/
def selectInfo (fields : List Expr) : SelInfo :=
  { calls := fields.foldr (fun f acc => collectCalls f ++ acc) []
    refs := fields.foldr (fun f acc => collectRefs f ++ acc) [] }

/-- dedupSortStrings is the sorted unique name list placed in `opt.Aux`. -/
def dedupSortStrings (l : List String) : List String :=
  l.dedup.insertionSort fun a b => a < b

/-- interiorArgs are the arguments of a call strictly between the first field
argument and the final limit literal. -/
def interiorArgs (args : List Expr) : List Expr := (args.drop 1).dropLast

/-- interiorRefNames asserts every interior argument is a `VarRef` (the
source's type assertion, which panics otherwise — modelled as `none`) and
returns the referenced names. -/
def interiorRefNames : List Expr → Option (List String)
  | [] => some []
  | .varRef v _ :: rest => (interiorRefNames rest).map (fun vs => v :: vs)
  | _ => none

/-- extendAuxFromCalls models the planner loop that appends the interior
tag references of every `top`/`bottom` call to `opt.Aux` and counts the extra
implicit fields. -/
def extendAuxFromCalls : List (String × List Expr) → Option (List String × Nat)
  | [] => some ([], 0)
  | (n, args) :: rest =>
    match extendAuxFromCalls rest with
    | none => none
    | some (names, k) =>
      if n = "top" ∨ n = "bottom" then
        match interiorRefNames (interiorArgs args) with
        | none => none
        | some vs => some (vs ++ names, k + vs.length)
      else some (names, k)

/-- extendFields rebuilds the projection with the implicit extra fields of
`top`/`bottom` inserted right after their call. -/
def extendFields (fields : List Expr) : List Expr :=
  fields.foldr
    (fun f acc =>
      match f with
      | .call n args =>
        if n = "top" ∨ n = "bottom" then .call n args :: (interiorArgs args ++ acc)
        else .call n args :: acc
      | _ => f :: acc)
    []

/-- select models `Select`.  `optRes` stands for the result of
`newIteratorOptionsStmt(stmt, sopt)` (not part of the provided source,
modelled as an oracle parameter).  The census check rejects multiple
aggregates mixed with raw refs; all-ref projections go through the
aux-iterator pipeline, everything else through the field-iterator pipeline after
the `top`/`bottom` aux extension. -/
def select (fuel : Nat) (fields : List Expr) (optRes : Except BErr Opt)
    (ic : ICm) (s : S) : Except BErr (List (Option Iter)) × S :=
  match optRes with
  | .error e => (.error e, s)
  | .ok opt0 =>
    let info := selectInfo fields
    if info.calls.length > 1 ∧ info.refs.length > 0 then
      (.error .multipleAggregates, s)
    else
      let opt1 := { opt0 with aux := dedupSortStrings info.refs }
      if info.calls.length = 0 ∧ info.refs.length > 0 then
        match buildAuxIterators fuel fields ic opt1 s with
        | (.error e, s') => (.error e, s')
        | (.ok itrs, s') => (.ok (itrs.map some), s')
      else
        match extendAuxFromCalls info.calls with
        | none => (.error .panicAssert, s)
        | some (names, extra) =>
          let opt2 := { opt1 with aux := opt1.aux ++ names }
          let fields' := if extra > 0 then extendFields fields else fields
          buildFieldIterators fuel fields' ic opt2 s

/-! ### Concrete fixtures for witnesses and counterexamples -/

/-- icOK is a storage-facing iterator creator that always succeeds, producing
leaves of the referenced field's declared type (float for pushed-down
calls). -/
def icOK : ICm :=
  { createType := fun oe => .ok (refTypeOf oe)
    kind := .storageLeaf
    seriesKeysRes := .ok () }

/-- optPlain is an option set with no interval, no fill, no limit, no
dedupe. -/
def optPlain : Opt :=
  { expr := none, aux := [], interval := ⟨0, 0⟩, fill := .noFill, fillValue := 0
    limitN := 0, offsetN := 0, dedupe := false, startTime := 0, endTime := 0 }

/-- optFillNull has a ten-nanosecond grouping interval and the `FILL(null)`
policy. -/
def optFillNull : Opt := { optPlain with interval := ⟨10, 0⟩, fill := .nullFill }

/-- s0 is the empty resource state. -/
def s0 : S := { next := 0, events := [] }

/-- ptInt7 is a concrete integer point (the right-hand operand in the C1
failing input). -/
def ptInt7 : Pt Int :=
  { name := "m", tags := [("host", "a")], time := 1, aux := [], value := 7, nil := false }

/-- ptQ5 is a concrete float point. -/
def ptQ5 : Pt ℚ :=
  { name := "m", tags := [("host", "a")], time := 1, aux := [], value := 5, nil := false }

/-! ### Storage table close / statistics (table.gen.go.tmpl) -/

/-- CurStats is the cursor statistics record (`ScannedValues`,
`ScannedBytes`). -/
structure CurStats where
  scannedValues : Int
  scannedBytes : Int
deriving DecidableEq, Repr

/-- Cursor abstracts a `cursors.ArrayCursor`: the only observations the
table's `Close`/`Statistics` make of it are `Stats` and `Close`. -/
structure Cursor where
  stats : CurStats
deriving DecidableEq, Repr

/-- TableState is the part of the generated `table` struct observed by
`Close` and `Statistics`: the (nillable) cursor.  The value buffers of the
per-type template instantiations play no role in these two methods, so one
state models every instantiation. -/
structure TableState where
  cur : Option Cursor
deriving DecidableEq, Repr

/-- tableClose models `(t *table) Close`: under the mutex, close the cursor
if it is non-nil and set it to nil.  The boolean records whether the upstream
`cur.Close()` was invoked by this call. -/
def tableClose (t : TableState) : TableState × Bool :=
  match t.cur with
  | some _ => ({ cur := none }, true)
  | none => (t, false)

/-- tableStatistics models `(t *table) Statistics`: a nil cursor yields the
zero statistics value, otherwise the cursor's counters are copied. -/
def tableStatistics (t : TableState) : CurStats :=
  match t.cur with
  | some c => { scannedValues := c.stats.scannedValues, scannedBytes := c.stats.scannedBytes }
  | none => { scannedValues := 0, scannedBytes := 0 }

/-- GroupTableState is the corresponding state of the generated group table:
the typed cursor and the group cursor, both nillable. -/
structure GroupTableState where
  cur : Option Cursor
  gc : Option Unit
deriving DecidableEq, Repr

/-- groupTableClose models the group table's `Close`: close and nil the typed
cursor, then close and nil the group cursor.  The booleans record which
upstream closes were invoked by this call. -/
def groupTableClose (t : GroupTableState) : GroupTableState × Bool × Bool :=
  let (c, closedCur) :=
    match t.cur with
    | some _ => ((none : Option Cursor), true)
    | none => (t.cur, false)
  let (g, closedGc) :=
    match t.gc with
    | some _ => ((none : Option Unit), true)
    | none => (t.gc, false)
  ({ cur := c, gc := g }, closedCur, closedGc)

/-- groupTableStatistics models the group table's `Statistics`: zero when the
typed cursor is nil, its counters otherwise. -/
def groupTableStatistics (t : GroupTableState) : CurStats :=
  match t.cur with
  | some c => { scannedValues := c.stats.scannedValues, scannedBytes := c.stats.scannedBytes }
  | none => { scannedValues := 0, scannedBytes := 0 }

/-! ### Helper lemmas -/

theorem bindOk_fst_ne (r : Except BErr Iter × S) (f : Iter → S → Except BErr Iter × S)
    (err : BErr) (hr : r.1 ≠ .error err) (hf : ∀ i s, (f i s).1 ≠ .error err) :
    (bindOk r f).1 ≠ .error err := by
  obtain ⟨a, s⟩ := r
  cases a with
  | ok i => exact hf i s
  | error e => simpa [bindOk] using hr

theorem mapOk_fst_ne (r : Except BErr Iter × S) (f : Iter → Iter) (err : BErr)
    (hr : r.1 ≠ .error err) : (mapOk r f).1 ≠ .error err := by
  refine bindOk_fst_ne r _ err hr ?_
  intro i s
  simp

theorem bindOk_eq_ok (r : Except BErr Iter × S) (f : Iter → S → Except BErr Iter × S)
    (it : Iter) (s' : S) (h : bindOk r f = (.ok it, s')) :
    ∃ i s₁, r = (.ok i, s₁) ∧ f i s₁ = (.ok it, s') := by
  obtain ⟨a, s⟩ := r
  cases a with
  | ok i => exact ⟨i, s, rfl, h⟩
  | error e => simp [bindOk] at h

theorem mapOk_eq_ok (r : Except BErr Iter × S) (f : Iter → Iter) (it : Iter) (s' : S)
    (h : mapOk r f = (.ok it, s')) : ∃ i, r = (.ok i, s') ∧ it = f i := by
  obtain ⟨i, s₁, hr, hf⟩ := bindOk_eq_ok r _ it s' h
  obtain ⟨h1, h2⟩ := Prod.mk.injEq .. ▸ hf
  exact ⟨i, by rw [hr, h2], (Except.ok.inj h1).symm⟩

theorem createIter_fst_ne_multiAgg (ic : ICm) (opt : Opt) (s : S) :
    (createIter ic opt s).1 ≠ .error .multipleAggregates := by
  unfold createIter
  split <;> simp

theorem createIter_eq_ok (ic : ICm) (opt : Opt) (s : S) (it : Iter) (s' : S)
    (h : createIter ic opt s = (.ok it, s')) : it.isLeaf = true := by
  unfold createIter at h
  split at h
  · simp at h
  · obtain ⟨h1, _⟩ := Prod.mk.injEq .. ▸ h
    cases hk : ic.kind <;> rw [hk] at h1 <;> simp at h1 <;> simp [← h1, Iter.isLeaf]

theorem isLeaf_not_mentionsInterval (it : Iter) (h : it.isLeaf = true) :
    mentionsInterval it = false := by
  cases it <;> simp_all [Iter.isLeaf, mentionsInterval]

theorem buildRHSTransformIterator_ne_multiAgg (lhs : Iter) (rhs : Expr) (op : Token) :
    buildRHSTransformIterator lhs rhs op ≠ .error .multipleAggregates := by
  unfold buildRHSTransformIterator
  repeat' split
  all_goals simp

theorem buildLHSTransformIterator_ne_multiAgg (lhs : Expr) (rhs : Iter) (op : Token) :
    buildLHSTransformIterator lhs rhs op ≠ .error .multipleAggregates := by
  unfold buildLHSTransformIterator
  repeat' split
  all_goals simp

theorem buildTransformIterator_ne_multiAgg (lhs rhs : Iter) (op : Token) :
    buildTransformIterator lhs rhs op ≠ .error .multipleAggregates := by
  unfold buildTransformIterator
  repeat' split
  all_goals simp

theorem buildCallDefault_fst_ne_multiAgg
    (rec : Expr → ICm → Opt → S → Except BErr Iter × S)
    (hrec : ∀ e ic opt s, (rec e ic opt s).1 ≠ .error .multipleAggregates)
    (name : String) (args : List Expr) (ic : ICm) (opt : Opt) (s : S) :
    (buildCallDefault rec name args ic opt s).1 ≠ .error .multipleAggregates := by
  unfold buildCallDefault
  repeat' split
  all_goals solve
    | simp
    | exact createIter_fst_ne_multiAgg ic opt s
    | exact mapOk_fst_ne _ _ _ (hrec _ _ _ _)
    | exact bindOk_fst_ne _ _ _ (hrec _ _ _ _)
        (by intro i s₁; first | (split <;> simp) | simp)

theorem buildExprIterator_fst_ne_multiAgg (fuel : Nat) (e : Expr) (ic : ICm)
    (opt : Opt) (s : S) :
    (buildExprIterator fuel e ic opt s).1 ≠ .error .multipleAggregates := by
  induction fuel generalizing e ic opt s with
  | zero => simp [buildExprIterator]
  | succ n ih =>
    cases e with
    | varRef v t => simpa [buildExprIterator] using createIter_fst_ne_multiAgg ic _ s
    | call name args =>
      simp only [buildExprIterator]
      split
      · split
        · exact mapOk_fst_ne _ _ _ (ih _ _ _ _)
        · simp
      · split
        · split
          · simp
          · exact mapOk_fst_ne _ _ _ (ih _ _ _ _)
        · exact mapOk_fst_ne _ _ _
            (buildCallDefault_fst_ne_multiAgg _ (fun e ic opt s => ih e ic opt s) name args ic _ s)
    | binary op lhs rhs =>
      simp only [buildExprIterator]
      split
      · split
        · simp
        · exact bindOk_fst_ne _ _ _ (ih _ _ _ _)
            (by intro i s₁; simpa using buildRHSTransformIterator_ne_multiAgg i rhs op)
      · split
        · exact bindOk_fst_ne _ _ _ (ih _ _ _ _)
            (by intro i s₁; simpa using buildLHSTransformIterator_ne_multiAgg lhs i op)
        · refine bindOk_fst_ne _ _ _ (ih _ _ _ _) ?_
          intro i s₁
          exact bindOk_fst_ne _ _ _ (ih _ _ _ _)
            (by intro j s₂; simpa using buildTransformIterator_ne_multiAgg i j op)
    | paren inner => simpa [buildExprIterator] using ih inner ic _ s
    | numLit v => simp [buildExprIterator]
    | intLit v => simp [buildExprIterator]
    | strLit v => simp [buildExprIterator]
    | boolLit v => simp [buildExprIterator]

/-! ### Claim theorems -/

/-- C1: in `buildTransformIterator`, the combine closures of the
integer-division and boolean-comparison variants construct the output point
from the left operand's metadata before any nil check; when the left upstream
is exhausted (nil left point) while the right side produced a point, they
dereference a nil pointer (a Go runtime panic, `Except.error ()`) instead of
emitting the right point's metadata with `Nil=true` and a zeroed value.  The
float-arithmetic variant (shown for contrast) handles the same input exactly
as the claim states. -/
theorem c1_combine_nil_left_panics :
    integerFloatExprFn (fun lhs rhs => if rhs = 0 then 0 else (lhs : ℚ) / (rhs : ℚ))
        none (some ptInt7) = .error ()
      ∧ floatBooleanExprFn (fun lhs rhs => lhs == rhs) none (some ptQ5) = .error ()
      ∧ integerBooleanExprFn (fun lhs rhs => lhs == rhs) none (some ptInt7) = .error ()
      ∧ floatExprFn (fun lhs rhs => lhs + rhs) none (some ptQ5)
          = .ok { ptQ5 with value := 0, nil := true }
      ∧ integerExprFn (fun lhs rhs => wrap64 (lhs + rhs)) none (some ptInt7)
          = .ok { ptInt7 with value := 0, nil := true } :=
  ⟨rfl, rfl, rfl, rfl, rfl⟩

/-- C4: for integer operands the arithmetic operators `+ - *` yield an
`int64`-valued function, `/` yields a `float64`-valued function (integer
division always promotes), and both the integer and float division functions
return zero of the result type when the divisor is zero (no error; NaN is not
representable in the rational model of finite float values). -/
theorem c4_integer_ops_and_div_by_zero :
    (∃ f, integerBinaryExprFunc .ADD = .ii f)
      ∧ (∃ f, integerBinaryExprFunc .SUB = .ii f)
      ∧ (∃ f, integerBinaryExprFunc .MUL = .ii f)
      ∧ (∃ f, integerBinaryExprFunc .DIV = .ifl f ∧ ∀ lhs : Int, f lhs 0 = 0)
      ∧ (∃ f, floatBinaryExprFunc .DIV = .ff f ∧ ∀ lhs : ℚ, f lhs 0 = 0) := by
  refine ⟨⟨_, rfl⟩, ⟨_, rfl⟩, ⟨_, rfl⟩, ⟨_, rfl, ?_⟩, ⟨_, rfl, ?_⟩⟩ <;> intro lhs <;> simp

/-- C9: for both generated table kinds, `Close` is idempotent (a second close
changes nothing and releases no upstream cursor again) and `Statistics`
remains callable after `Close`, returning the zero statistics value. -/
theorem c9_close_idempotent_and_stats_after_close (t : TableState) (g : GroupTableState) :
    tableClose (tableClose t).1 = ((tableClose t).1, false)
      ∧ tableStatistics (tableClose t).1 = { scannedValues := 0, scannedBytes := 0 }
      ∧ groupTableClose (groupTableClose g).1 = ((groupTableClose g).1, false, false)
      ∧ groupTableStatistics (groupTableClose g).1
          = { scannedValues := 0, scannedBytes := 0 } := by
  obtain ⟨cur⟩ := t
  obtain ⟨gcur, ggc⟩ := g
  cases cur <;> cases gcur <;> cases ggc <;>
    simp [tableClose, tableStatistics, groupTableClose, groupTableStatistics]

/-- C8: a binary expression whose two operands are both literals makes
`buildExprIterator` fail with the two-literals error, constructing nothing
(the state is unchanged). -/
theorem c8_two_literals_error (op : Token) (lhs rhs : Expr) (fuel : Nat) (ic : ICm)
    (opt : Opt) (s : S) (hl : lhs.isLiteral = true) (hr : rhs.isLiteral = true) :
    buildExprIterator (fuel + 1) (.binary op lhs rhs) ic opt s
      = (.error .twoLiterals, s) := by
  simp [buildExprIterator, hl, hr]

theorem c8_two_literals_error_witness :
    (Expr.numLit 1).isLiteral = true ∧ (Expr.strLit "a").isLiteral = true
      ∧ buildExprIterator 1 (.binary .ADD (.numLit 1) (.strLit "a")) icOK optPlain s0
          = (.error .twoLiterals, s0) :=
  ⟨rfl, rfl, c8_two_literals_error .ADD (.numLit 1) (.strLit "a") 0 icOK optPlain s0 rfl rfl⟩

/-- C5 counterexample: `top(x, 0)` is not rejected; `buildExprIterator`
accepts it and constructs a top iterator over the leaf, with no validation of
the limit literal. -/
theorem c5_counterexample_top_zero_accepted :
    buildExprIterator 2 (.call "top" [.varRef "x" .float, .numLit 0]) icOK optPlain s0
      = (.ok (.top (.storage 0 .float) 0 []),
         { next := 1, events := [.alloc 0] }) := by
  rfl

/-- C5 (amended): `top`/`bottom` with fewer than two arguments fail with the
arity error before anything is built; but the final argument is only
type-asserted to be a number literal — `top(x, 0)` is accepted and builds a
top iterator, no `N ≥ 1` validation exists. -/
theorem c5_arity_error_and_top_zero_accepted (args : List Expr) (fuel : Nat)
    (ic : ICm) (opt : Opt) (s : S) (h : args.length < 2) :
    buildExprIterator (fuel + 1) (.call "top" args) ic opt s
        = (.error (.topArity args.length), s)
      ∧ buildExprIterator (fuel + 1) (.call "bottom" args) ic opt s
          = (.error (.bottomArity args.length), s)
      ∧ (buildExprIterator 2 (.call "top" [.varRef "x" .float, .numLit 0]) icOK
          optPlain s0).1 = .ok (.top (.storage 0 .float) 0 []) := by
  refine ⟨?_, ?_, rfl⟩ <;> simp [buildExprIterator, buildCallDefault, h, mapOk, bindOk]

theorem c5_arity_error_witness :
    ([Expr.varRef "x" DataType.float].length < 2)
      ∧ buildExprIterator 1 (.call "top" [.varRef "x" .float]) icOK optPlain s0
          = (.error (.topArity 1), s0) :=
  ⟨by decide,
    (c5_arity_error_and_top_zero_accepted [.varRef "x" .float] 0 icOK optPlain s0
      (by decide)).1⟩

/-- C2 counterexample: a `derivative` call is a Call expression whose built
iterator is not wrapped in `NewIntervalIterator` (nor does any interval node
occur in its tree), even though `derivative` is neither `top` nor `bottom`. -/
theorem c2_counterexample_derivative_no_interval_wrap :
    (buildExprIterator 2 (.call "derivative" [.varRef "v" .float]) icOK optFillNull s0).1
        = .ok (.derivative (.storage 0 .float) false)
      ∧ receivedIntervalWrap (.derivative (.storage 0 .float) false) = false
      ∧ mentionsInterval (.derivative (.storage 0 .float) false) = false :=
  ⟨rfl, rfl, rfl⟩

/-- C7 counterexample: a `distinct` call built with a non-zero interval and
`FILL(null)` receives no fill wrap, refuting "wrapped in a fill iterator
exactly when `opt.Interval` is non-zero and `opt.Fill` is not `NoFill`" for
every Call expression. -/
theorem c7_counterexample_distinct_no_fill_wrap :
    (buildExprIterator 2 (.call "distinct" [.varRef "v" .float]) icOK optFillNull s0).1
        = .ok (.interval (.distinct (.storage 0 .float)))
      ∧ isFillTop (.interval (.distinct (.storage 0 .float))) = false
      ∧ optFillNull.interval.isZero = false
      ∧ optFillNull.fill ≠ .noFill :=
  ⟨rfl, rfl, rfl, by decide⟩

/-- C3: in the aux-iterator pipeline, a failing field build (here the second
field `v + 'a'`, whose right literal is not a number literal) returns the
wrapped error while the combined upstream iterator (id 0) and the
already-built downstream iterators (ids 1, 2) are never closed — the
previously built iterators leak. -/
theorem c3_aux_pipeline_leaks_on_error :
    (select 9 [.varRef "v" .float, .binary .ADD (.varRef "v" .float) (.strLit "a")]
        (.ok optPlain) icOK s0).1 = .error (.fieldWrap .rhsNotNumberLit)
      ∧ leaked (select 9 [.varRef "v" .float,
          .binary .ADD (.varRef "v" .float) (.strLit "a")]
          (.ok optPlain) icOK s0).2.events = [0, 1, 2] :=
  ⟨rfl, rfl⟩

theorem createIter_err_shape (ic : ICm) (opt : Opt) (s : S) (e : BErr) (s' : S)
    (h : createIter ic opt s = (.error e, s')) : ∃ n, e = .storage n := by
  unfold createIter at h
  split at h
  · obtain ⟨h1, -⟩ := Prod.mk.injEq .. ▸ h
    exact ⟨_, (Except.error.inj h1).symm⟩
  · simp at h

theorem buildAuxLoop_fst_ne_unreachable (fuel : Nat) (opt : Opt) (fields : List Expr)
    (hf : ∀ f ∈ fields, isVarRefOrBinary (reduce f) = true) :
    ∀ (acc : List Iter) (s : S),
      (buildAuxLoop fuel opt fields acc s).1 ≠ .error .panicUnreachable := by
  induction fields with
  | nil => intro acc s; simp [buildAuxLoop]
  | cons f rest ih =>
    intro acc s
    have hhd := hf f (List.mem_cons_self f rest)
    have htl := fun g hg => hf g (List.mem_cons_of_mem f hg)
    simp only [buildAuxLoop]
    split
    · exact ih htl _ _
    · split
      · exact ih htl _ _
      · simp
    · next x hxa hxb =>
      cases hx : reduce f with
      | varRef v t => exact absurd hx (hxa v t)
      | binary op l r => exact absurd hx (hxb op l r)
      | paren e => rw [hx] at hhd; simp [isVarRefOrBinary] at hhd
      | call n args => rw [hx] at hhd; simp [isVarRefOrBinary] at hhd
      | numLit v => rw [hx] at hhd; simp [isVarRefOrBinary] at hhd
      | intLit v => rw [hx] at hhd; simp [isVarRefOrBinary] at hhd
      | strLit v => rw [hx] at hhd; simp [isVarRefOrBinary] at hhd
      | boolLit v => rw [hx] at hhd; simp [isVarRefOrBinary] at hhd

/-- C10: the aux pipeline of `Select` hits `panic("unreachable")` on the
projection `SELECT v, 5` (a raw ref plus a field reducing to a literal),
while for every projection whose every field reduces to a `VarRef` or a
`BinaryExpr` the panic branch of `buildAuxIterators` is unreachable. -/
theorem c10_aux_pipeline_panic_unreachable :
    (select 9 [.varRef "v" .float, .numLit 5] (.ok optPlain) icOK s0).1
        = .error .panicUnreachable
      ∧ ∀ (fuel : Nat) (fields : List Expr) (ic : ICm) (opt : Opt) (s : S),
          (∀ f ∈ fields, isVarRefOrBinary (reduce f) = true) →
          (buildAuxIterators fuel fields ic opt s).1 ≠ .error .panicUnreachable := by
  refine ⟨rfl, ?_⟩
  intro fuel fields ic opt s h
  unfold buildAuxIterators
  cases hc : createIter ic opt s with
  | mk r s₁ =>
    cases r with
    | error e =>
      obtain ⟨n, rfl⟩ := createIter_err_shape ic opt s e s₁ hc
      simp
    | ok input =>
      cases hk : ic.seriesKeysRes with
      | error n => simp
      | ok u => exact buildAuxLoop_fst_ne_unreachable fuel opt fields h _ _

theorem c10_aux_pipeline_panic_unreachable_witness :
    (∀ f ∈ ([Expr.varRef "v" DataType.float] : List Expr),
        isVarRefOrBinary (reduce f) = true)
      ∧ (buildAuxIterators 3 [.varRef "v" .float] icOK optPlain s0).1
          ≠ .error .panicUnreachable :=
  ⟨by decide,
    c10_aux_pipeline_panic_unreachable.2 3 [.varRef "v" .float] icOK optPlain s0
      (by decide)⟩

theorem buildAuxLoop_fst_ne_multiAgg (fuel : Nat) (opt : Opt) (fields : List Expr) :
    ∀ (acc : List Iter) (s : S),
      (buildAuxLoop fuel opt fields acc s).1 ≠ .error .multipleAggregates := by
  induction fields with
  | nil => intro acc s; simp [buildAuxLoop]
  | cons f rest ih =>
    intro acc s
    simp only [buildAuxLoop]
    split
    · exact ih _ _
    · split
      · exact ih _ _
      · simp
    · simp

theorem buildAuxIterators_fst_ne_multiAgg (fuel : Nat) (fields : List Expr)
    (ic : ICm) (opt : Opt) (s : S) :
    (buildAuxIterators fuel fields ic opt s).1 ≠ .error .multipleAggregates := by
  unfold buildAuxIterators
  cases hc : createIter ic opt s with
  | mk r s₁ =>
    cases r with
    | error e =>
      obtain ⟨n, rfl⟩ := createIter_err_shape ic opt s e s₁ hc
      simp
    | ok input =>
      cases hk : ic.seriesKeysRes with
      | error n => simp
      | ok u => exact buildAuxLoop_fst_ne_multiAgg fuel opt fields _ _

theorem buildFieldPass1_err_ne_multiAgg (fuel : Nat) (ic : ICm) (opt : Opt)
    (fields : List Expr) :
    ∀ (acc : List (Option Iter)) (input : Option Iter) (hasAux : Bool) (s : S)
      (e : BErr) (slots : List (Option Iter)) (s' : S),
      buildFieldPass1 fuel ic opt fields acc input hasAux s = (.error (e, slots), s') →
      e ≠ .multipleAggregates := by
  induction fields with
  | nil => intro acc input hasAux s e slots s' h; simp [buildFieldPass1] at h
  | cons f rest ih =>
    intro acc input hasAux s e slots s' h
    simp only [buildFieldPass1] at h
    split at h
    · exact ih _ _ _ _ _ _ _ h
    · cases hb : buildExprIterator fuel (reduce f) ic opt s with
      | mk r₁ s₁ =>
        rw [hb] at h
        cases r₁ with
        | error e₁ =>
          simp only [Prod.mk.injEq, Except.error.injEq] at h
          obtain ⟨⟨he, -⟩, -⟩ := h
          intro hcontra
          rw [hcontra] at he
          exact buildExprIterator_fst_ne_multiAgg fuel (reduce f) ic opt s
            (by rw [hb, ← he])
        | ok itr => exact ih _ _ _ _ _ _ _ h

theorem buildFieldPass2_err_ne_multiAgg (fuel : Nat) (opt : Opt) (aitr : Iter)
    (pairs : List (Expr × Option Iter)) :
    ∀ (done : List (Option Iter)) (s : S) (e : BErr) (slots : List (Option Iter)) (s' : S),
      buildFieldPass2 fuel opt aitr pairs done s = (.error (e, slots), s') →
      e ≠ .multipleAggregates := by
  induction pairs with
  | nil => intro done s e slots s' h; simp [buildFieldPass2] at h
  | cons p rest ih =>
    intro done s e slots s' h
    obtain ⟨f, slot⟩ := p
    simp only [buildFieldPass2] at h
    cases slot with
    | some i => exact ih _ _ _ _ _ h
    | none =>
      cases hb : buildExprIterator fuel (reduce f) auxIC opt s with
      | mk r₁ s₁ =>
        rw [hb] at h
        cases r₁ with
        | error e₁ =>
          simp only [Prod.mk.injEq, Except.error.injEq] at h
          obtain ⟨⟨he, -⟩, -⟩ := h
          intro hcontra
          rw [hcontra] at he
          exact buildExprIterator_fst_ne_multiAgg fuel (reduce f) auxIC opt s
            (by rw [hb, ← he])
        | ok itr => exact ih _ _ _ _ _ h

theorem finishLimit_fst_ne (opt : Opt) (slots : List (Option Iter)) (s : S) (e : BErr) :
    (finishLimit opt slots s).1 ≠ .error e := by
  unfold finishLimit
  split <;> simp

theorem buildFieldIterators_fst_ne_multiAgg (fuel : Nat) (fields : List Expr)
    (ic : ICm) (opt : Opt) (s : S) :
    (buildFieldIterators fuel fields ic opt s).1 ≠ .error .multipleAggregates := by
  unfold buildFieldIterators
  split
  · next e slots s' heq =>
    simpa using buildFieldPass1_err_ne_multiAgg fuel ic opt fields _ _ _ _ _ _ _ heq
  · split
    · exact finishLimit_fst_ne _ _ _ _
    · exact finishLimit_fst_ne _ _ _ _
    · split
      · simp
      · split
        · next e slots2 s'' heq2 =>
          simpa using buildFieldPass2_err_ne_multiAgg fuel opt _ _ _ _ _ _ _ heq2
        · exact finishLimit_fst_ne _ _ _ _

/-- C6: with the statement options building successfully, `Select` returns
the multiple-aggregates error exactly when the projection census has more
than one call and at least one raw field reference; with at most one call the
mix passes this validation (any failure would be a different error). -/
theorem c6_multiple_aggregates_iff (fuel : Nat) (fields : List Expr) (opt : Opt)
    (ic : ICm) (s : S) :
    (select fuel fields (.ok opt) ic s).1 = .error .multipleAggregates
      ↔ ((selectInfo fields).calls.length > 1
          ∧ (selectInfo fields).refs.length > 0) := by
  constructor
  · intro h
    by_contra hc
    simp only [select] at h
    split at h
    · next hcond => exact hc hcond
    · split at h
      · next haux =>
        cases hb : buildAuxIterators fuel fields ic _ s with
        | mk r₁ s₁ =>
          rw [hb] at h
          cases r₁ with
          | error e =>
            simp only at h
            exact buildAuxIterators_fst_ne_multiAgg fuel fields ic _ s
              (by rw [hb]; simpa using h)
          | ok itrs => simp at h
      · split at h
        · simp at h
        · exact buildFieldIterators_fst_ne_multiAgg fuel _ ic _ s h
  · intro hcond
    simp only [select]
    rw [if_pos hcond]

theorem varRef_ok_leaf (fuel : Nat) (v : String) (t : DataType) (ic : ICm)
    (opt : Opt) (s : S) (it : Iter) (s' : S)
    (h : buildExprIterator fuel (.varRef v t) ic opt s = (.ok it, s')) :
    it.isLeaf = true := by
  cases fuel with
  | zero => simp [buildExprIterator] at h
  | succ n =>
    simp only [buildExprIterator] at h
    exact createIter_eq_ok _ _ _ _ _ h

theorem buildCallDefault_ok_shape
    (rec : Expr → ICm → Opt → S → Except BErr Iter × S)
    (name : String) (args : List Expr) (ic : ICm) (opt : Opt) (s : S)
    (it : Iter) (s' : S)
    (h : buildCallDefault rec name args ic opt s = (.ok it, s')) :
    isFillTop it = false ∧ receivedIntervalWrap it = false := by
  unfold buildCallDefault at h
  repeat' split at h
  all_goals solve
    | simp at h
    | (have hleaf := createIter_eq_ok _ _ _ _ _ h
       cases it <;> simp_all [Iter.isLeaf, isFillTop, receivedIntervalWrap])
    | (obtain ⟨i, hr, rfl⟩ := mapOk_eq_ok _ _ _ _ h
       simp [isFillTop, receivedIntervalWrap])
    | (obtain ⟨i, s₁, hr, hf⟩ := bindOk_eq_ok _ _ _ _ h
       repeat' split at hf
       all_goals solve
         | simp at hf
         | (obtain ⟨h1, h2⟩ := Prod.mk.injEq .. ▸ hf
            cases Except.ok.inj h1
            simp [isFillTop, receivedIntervalWrap]))

theorem buildCallDefault_top_bottom_no_interval
    (rec : Expr → ICm → Opt → S → Except BErr Iter × S)
    (hrec : ∀ (v : String) (t : DataType) (ic₁ : ICm) (opt₁ : Opt) (s₁ : S)
      (it₁ : Iter) (s₂ : S),
      rec (.varRef v t) ic₁ opt₁ s₁ = (.ok it₁, s₂) → it₁.isLeaf = true)
    (name : String) (args : List Expr) (ic : ICm) (opt : Opt) (s : S)
    (it : Iter) (s' : S) (hname : name = "top" ∨ name = "bottom")
    (h : buildCallDefault rec name args ic opt s = (.ok it, s')) :
    mentionsInterval it = false := by
  rcases hname with rfl | rfl
  all_goals
    unfold buildCallDefault at h
    repeat' split at h
    all_goals solve
      | simp_all
      | (obtain ⟨i, s₁, hr, hf⟩ := bindOk_eq_ok _ _ _ _ h
         have hleaf := hrec _ _ _ _ _ _ _ hr
         repeat' split at hf
         all_goals solve
           | simp at hf
           | (obtain ⟨h1, h2⟩ := Prod.mk.injEq .. ▸ hf
              cases Except.ok.inj h1
              simpa [mentionsInterval] using isLeaf_not_mentionsInterval i hleaf))

theorem callWrap_received_true (name : String) (opt : Opt) (itr : Iter)
    (h1 : ¬name = "top") (h2 : ¬name = "bottom") :
    receivedIntervalWrap (callWrap name opt itr) = true := by
  simp only [callWrap]
  split <;> rw [if_pos ⟨h1, h2⟩] <;> simp [receivedIntervalWrap]

theorem callWrap_top_bottom_eq (name : String) (opt : Opt) (itr : Iter)
    (hname : name = "top" ∨ name = "bottom") :
    callWrap name opt itr
      = if ¬opt.interval.isZero ∧ opt.fill ≠ .noFill then Iter.fill itr else itr := by
  rcases hname with rfl | rfl
  · simp only [callWrap]
    rw [if_neg (show ¬(("top" : String) ≠ "top" ∧ ("top" : String) ≠ "bottom") from
      by simp)]
  · simp only [callWrap]
    rw [if_neg (show ¬(("bottom" : String) ≠ "top" ∧ ("bottom" : String) ≠ "bottom")
      from by simp)]

theorem callWrap_fillTop_iff (name : String) (opt : Opt) (itr : Iter)
    (h : isFillTop itr = false) :
    isFillTop (callWrap name opt itr) = true
      ↔ (¬opt.interval.isZero ∧ opt.fill ≠ .noFill) := by
  simp only [callWrap]
  split
  · next hc => exact iff_of_true (by simp [isFillTop]) hc
  · next hc =>
    refine iff_of_false ?_ hc
    split
    · simp [isFillTop]
    · simp [h]

theorem buildExprIterator_call_default_eq (fuel : Nat) (name : String)
    (args : List Expr) (ic : ICm) (opt : Opt) (s : S)
    (hd : ¬name = "distinct")
    (hdd : ¬(name = "derivative" ∨ name = "non_negative_derivative")) :
    buildExprIterator (fuel + 1) (.call name args) ic opt s
      = mapOk (buildCallDefault (buildExprIterator fuel) name args ic
          { opt with expr := some (.call name args) } s)
          (callWrap name { opt with expr := some (.call name args) }) := by
  simp only [buildExprIterator]
  rw [if_neg hd, if_neg hdd]

theorem buildExprIterator_call_distinct_eq (fuel : Nat) (args : List Expr)
    (ic : ICm) (opt : Opt) (s : S) :
    buildExprIterator (fuel + 1) (.call "distinct" args) ic opt s
      = match args.get? 0 with
        | some (.varRef v t) =>
          mapOk (buildExprIterator fuel (.varRef v t) ic
            { opt with expr := some (.call "distinct" args) } s)
            (fun input => .interval (.distinct input))
        | _ => (.error .panicAssert, s) := by
  simp only [buildExprIterator]
  rw [if_pos trivial]

theorem buildExprIterator_call_deriv_eq (fuel : Nat) (name : String)
    (args : List Expr) (ic : ICm) (opt : Opt) (s : S)
    (hd : ¬name = "distinct")
    (hdd : name = "derivative" ∨ name = "non_negative_derivative") :
    buildExprIterator (fuel + 1) (.call name args) ic opt s
      = match args.get? 0 with
        | none => (.error .panicAssert, s)
        | some a0 =>
          mapOk (buildExprIterator fuel a0 ic
            { opt with expr := some (.call name args) } s)
            (fun input => .derivative input (name == "non_negative_derivative")) := by
  simp only [buildExprIterator]
  rw [if_neg hd, if_pos hdd]

/-- C2 (amended): every call dispatched through the default branch other than
`top`/`bottom` receives an interval wrap (optionally under a fill wrap), and
`distinct` is interval-wrapped inside its own branch; `top`/`bottom` never
receive one (no interval node occurs anywhere in their tree); but `derivative`
and `non_negative_derivative` — although neither `top` nor `bottom` — also
never receive an interval wrap, contrary to the claim as stated. -/
theorem c2_interval_wrap_rules (name : String) (args : List Expr) (ic : ICm)
    (opt : Opt) (s : S) (it : Iter) (s' : S) (fuel : Nat)
    (h : buildExprIterator (fuel + 1) (.call name args) ic opt s = (.ok it, s')) :
    (name ∈ (["count", "min", "max", "sum", "first", "last", "mean", "median",
          "stddev", "spread", "percentile", "distinct"] : List String) →
        receivedIntervalWrap it = true)
      ∧ (name ∈ (["top", "bottom"] : List String) → mentionsInterval it = false)
      ∧ (name ∈ (["derivative", "non_negative_derivative"] : List String) →
          receivedIntervalWrap it = false) := by
  refine ⟨fun hmem => ?_, fun hmem => ?_, fun hmem => ?_⟩
  · simp only [List.mem_cons, List.not_mem_nil, or_false] at hmem
    rcases hmem with rfl | rfl | rfl | rfl | rfl | rfl | rfl | rfl | rfl | rfl | rfl | rfl
    all_goals solve
      | (rw [buildExprIterator_call_default_eq _ _ _ _ _ _ (by decide) (by decide)] at h
         obtain ⟨i, hr, rfl⟩ := mapOk_eq_ok _ _ _ _ h
         exact callWrap_received_true _ _ _ (by decide) (by decide))
      | (rw [buildExprIterator_call_distinct_eq] at h
         split at h
         all_goals solve
           | (obtain ⟨i, hr, rfl⟩ := mapOk_eq_ok _ _ _ _ h
              simp [receivedIntervalWrap])
           | simp at h)
  · simp only [List.mem_cons, List.not_mem_nil, or_false] at hmem
    rcases hmem with rfl | rfl
    · rw [buildExprIterator_call_default_eq _ _ _ _ _ _ (by decide) (by decide)] at h
      obtain ⟨i, hr, rfl⟩ := mapOk_eq_ok _ _ _ _ h
      have hmi := buildCallDefault_top_bottom_no_interval _
        (fun v t ic₁ opt₁ s₁ it₁ s₂ hh => varRef_ok_leaf fuel v t ic₁ opt₁ s₁ it₁ s₂ hh)
        _ _ _ _ _ _ _ (Or.inl rfl) hr
      rw [callWrap_top_bottom_eq _ _ _ (Or.inl rfl)]
      split <;> simpa [mentionsInterval] using hmi
    · rw [buildExprIterator_call_default_eq _ _ _ _ _ _ (by decide) (by decide)] at h
      obtain ⟨i, hr, rfl⟩ := mapOk_eq_ok _ _ _ _ h
      have hmi := buildCallDefault_top_bottom_no_interval _
        (fun v t ic₁ opt₁ s₁ it₁ s₂ hh => varRef_ok_leaf fuel v t ic₁ opt₁ s₁ it₁ s₂ hh)
        _ _ _ _ _ _ _ (Or.inr rfl) hr
      rw [callWrap_top_bottom_eq _ _ _ (Or.inr rfl)]
      split <;> simpa [mentionsInterval] using hmi
  · simp only [List.mem_cons, List.not_mem_nil, or_false] at hmem
    rcases hmem with rfl | rfl
    all_goals
      first
      | rw [buildExprIterator_call_deriv_eq _ _ _ _ _ _ (by decide) (Or.inl rfl)] at h
      | rw [buildExprIterator_call_deriv_eq _ _ _ _ _ _ (by decide) (Or.inr rfl)] at h
    all_goals
      split at h
      · simp at h
      · obtain ⟨i, hr, rfl⟩ := mapOk_eq_ok _ _ _ _ h
        simp [receivedIntervalWrap]

theorem c2_interval_wrap_rules_witness :
    receivedIntervalWrap (.interval (.storage 0 .float)) = true :=
  (c2_interval_wrap_rules "mean" [.varRef "v" .float] icOK optPlain s0
      (.interval (.storage 0 .float)) { next := 1, events := [.alloc 0] } 1 rfl).1
    (by decide)

/-- C7 (amended): for calls dispatched through the default branch (including
`top`/`bottom`) the result is fill-wrapped exactly when the interval is
non-zero and the fill policy is not `NoFill` — in particular a zero interval
always skips fill; but the `distinct` and derivative branches return early and
are never fill-wrapped, contrary to the claim as stated. -/
theorem c7_fill_wrap_rules (name : String) (args : List Expr) (ic : ICm)
    (opt : Opt) (s : S) (it : Iter) (s' : S) (fuel : Nat)
    (h : buildExprIterator (fuel + 1) (.call name args) ic opt s = (.ok it, s')) :
    (name ∈ (["count", "min", "max", "sum", "first", "last", "mean", "median",
          "stddev", "spread", "percentile", "top", "bottom"] : List String) →
        (isFillTop it = true ↔ (¬opt.interval.isZero ∧ opt.fill ≠ .noFill)))
      ∧ (name ∈ (["distinct", "derivative", "non_negative_derivative"] : List String) →
          isFillTop it = false) := by
  refine ⟨fun hmem => ?_, fun hmem => ?_⟩
  · simp only [List.mem_cons, List.not_mem_nil, or_false] at hmem
    rcases hmem with
      rfl | rfl | rfl | rfl | rfl | rfl | rfl | rfl | rfl | rfl | rfl | rfl | rfl
    all_goals
      rw [buildExprIterator_call_default_eq _ _ _ _ _ _ (by decide) (by decide)] at h
      obtain ⟨i, hr, rfl⟩ := mapOk_eq_ok _ _ _ _ h
      have hshape := buildCallDefault_ok_shape _ _ _ _ _ _ _ _ hr
      exact callWrap_fillTop_iff _ _ _ hshape.1
  · simp only [List.mem_cons, List.not_mem_nil, or_false] at hmem
    rcases hmem with rfl | rfl | rfl
    · rw [buildExprIterator_call_distinct_eq] at h
      split at h
      all_goals solve
        | (obtain ⟨i, hr, rfl⟩ := mapOk_eq_ok _ _ _ _ h
           simp [isFillTop])
        | simp at h
    all_goals
      first
      | rw [buildExprIterator_call_deriv_eq _ _ _ _ _ _ (by decide) (Or.inl rfl)] at h
      | rw [buildExprIterator_call_deriv_eq _ _ _ _ _ _ (by decide) (Or.inr rfl)] at h
    all_goals
      split at h
      · simp at h
      · obtain ⟨i, hr, rfl⟩ := mapOk_eq_ok _ _ _ _ h
        simp [isFillTop]

theorem c7_fill_wrap_rules_witness :
    isFillTop (.fill (.interval (.storage 0 .float))) = true :=
  ((c7_fill_wrap_rules "mean" [.varRef "v" .float] icOK optFillNull s0
      (.fill (.interval (.storage 0 .float))) { next := 1, events := [.alloc 0] } 1
      rfl).1 (by decide)).mpr (by decide)

end FreeTSDB
